import Mathlib

/-!
Verification of the icearc-avhrr-sic statistical pipeline (compute_sic.py).

Shallow embedding conventions:
* Pixel grids are functions out of `Fin h × Fin w`; per-pixel operations are
  embedded as per-pixel functions on scalar values.
* numpy masked arrays are embedded as a value paired with a Boolean invalidity
  flag (`MVal`).  Where the source applies `np.where` to a masked array, the
  raw `.data` payload is used and the mask is dropped, exactly as numpy does.
* Machine floats are embedded as exact rationals.  A raw value read from the
  coefficient table is a rational together with a finiteness flag (`FloatQ`);
  `finite = false` models NaN/Inf, which `np.ma.fix_invalid` masks and
  replaces by the default fill value 1e20.  Rational division by zero yields 0
  (numpy float division would yield inf/nan); every concrete evaluation below
  is chosen so that the embedded and float semantics agree on the stated
  property.
* `scipy.ndimage.label` with the default structuring element partitions a
  Boolean grid into maximal 4-connected components.  Its semantics is embedded
  by a saturating neighbourhood expansion (`expand` / `comp`) and related to
  the mathematical reflexive-transitive closure (`Reach`).
-/

set_option maxRecDepth 10000

namespace IcearcAvhrrSic

/-! ## Finite connected-component machinery

`expand S adj A` grows a pixel set by one ring of `adj`-neighbours lying in
the blob predicate `S`; iterating it `Fintype.card` many times from a seed
pixel saturates, giving the connected component that `scipy.ndimage.label`
assigns to that pixel. -/

section Closure

variable {α : Type} [DecidableEq α] [Fintype α]

def expand (S : α → Bool) (adj : α → α → Bool) (A : Finset α) : Finset α :=
  A ∪ Finset.univ.filter (fun q => S q = true ∧ ∃ r ∈ A, adj r q = true)

lemma subset_expand (S : α → Bool) (adj : α → α → Bool) (A : Finset α) :
    A ⊆ expand S adj A :=
  Finset.subset_union_left

lemma subset_iterate_expand (S : α → Bool) (adj : α → α → Bool) (A : Finset α) :
    ∀ n, A ⊆ (expand S adj)^[n] A := by
  intro n
  induction n with
  | zero => simp
  | succ n ih =>
      rw [Function.iterate_succ_apply']
      exact ih.trans (subset_expand S adj _)

lemma expand_growth (S : α → Bool) (adj : α → α → Bool) (A : Finset α) :
    ∀ n, (∃ k < n, (expand S adj)^[k + 1] A = (expand S adj)^[k] A) ∨
      A.card + n ≤ ((expand S adj)^[n] A).card := by
  intro n
  induction n with
  | zero => right; simp
  | succ n ih =>
      rcases ih with ⟨k, hk, he⟩ | hcard
      · exact Or.inl ⟨k, Nat.lt_succ_of_lt hk, he⟩
      · by_cases hfix : (expand S adj)^[n + 1] A = (expand S adj)^[n] A
        · exact Or.inl ⟨n, Nat.lt_succ_self n, hfix⟩
        · right
          have hsub : (expand S adj)^[n] A ⊆ (expand S adj)^[n + 1] A := by
            rw [Function.iterate_succ_apply']
            exact subset_expand S adj _
          have hss : (expand S adj)^[n] A ⊂ (expand S adj)^[n + 1] A :=
            Finset.ssubset_iff_subset_ne.mpr ⟨hsub, fun h => hfix h.symm⟩
          have hlt := Finset.card_lt_card hss
          omega

lemma stable_iterate (S : α → Bool) (adj : α → α → Bool) (A : Finset α) (k : ℕ)
    (h : (expand S adj)^[k + 1] A = (expand S adj)^[k] A) :
    ∀ m, k ≤ m → (expand S adj)^[m] A = (expand S adj)^[k] A := by
  intro m hm
  induction m, hm using Nat.le_induction with
  | base => rfl
  | succ m hm ih =>
      rw [Function.iterate_succ_apply', ih]
      exact ((Function.iterate_succ_apply' _ _ _).symm).trans h

lemma expand_iterate_fixed (S : α → Bool) (adj : α → α → Bool) (A : Finset α) :
    expand S adj ((expand S adj)^[Fintype.card α] A) =
      (expand S adj)^[Fintype.card α] A := by
  rcases expand_growth S adj A (Fintype.card α) with ⟨k, hk, he⟩ | hcard
  · have h1 := stable_iterate S adj A k he (Fintype.card α) hk.le
    have h2 := stable_iterate S adj A k he (Fintype.card α + 1) (Nat.le_succ_of_le hk.le)
    calc expand S adj ((expand S adj)^[Fintype.card α] A)
        = (expand S adj)^[Fintype.card α + 1] A := (Function.iterate_succ_apply' _ _ _).symm
      _ = (expand S adj)^[k] A := h2
      _ = (expand S adj)^[Fintype.card α] A := h1.symm
  · have hle : ((expand S adj)^[Fintype.card α] A).card ≤ Fintype.card α :=
      Finset.card_le_univ _
    have hcardeq : ((expand S adj)^[Fintype.card α] A).card = Fintype.card α := by omega
    have huniv : (expand S adj)^[Fintype.card α] A = Finset.univ :=
      Finset.eq_univ_of_card _ hcardeq
    rw [huniv]
    exact Finset.Subset.antisymm (Finset.subset_univ _) (subset_expand S adj _)

/-- The connected component of seed pixel `p` inside the blob predicate `S`
under adjacency `adj`, as computed by saturating expansion.  This is the set
of pixels sharing `p`'s `ndimage.label` label (for `p` in the blob set). -/
def comp (S : α → Bool) (adj : α → α → Bool) (p : α) : Finset α :=
  (expand S adj)^[Fintype.card α] {p}

/-- Mathematical connectivity: `q` is reachable from `p` by a chain of
`adj`-steps whose every pixel after `p` satisfies `S`. -/
def Reach (S : α → Bool) (adj : α → α → Bool) (p q : α) : Prop :=
  Relation.ReflTransGen (fun a b => S b = true ∧ adj a b = true) p q

lemma expand_comp_fixed (S : α → Bool) (adj : α → α → Bool) (p : α) :
    expand S adj (comp S adj p) = comp S adj p :=
  expand_iterate_fixed S adj {p}

lemma reach_of_mem_iterate (S : α → Bool) (adj : α → α → Bool) (p : α) :
    ∀ n q, q ∈ (expand S adj)^[n] {p} → Reach S adj p q := by
  intro n
  induction n with
  | zero =>
      intro q hq
      simp only [Function.iterate_zero_apply, Finset.mem_singleton] at hq
      subst hq
      exact Relation.ReflTransGen.refl
  | succ n ih =>
      intro q hq
      rw [Function.iterate_succ_apply'] at hq
      rcases Finset.mem_union.mp hq with h | h
      · exact ih q h
      · obtain ⟨-, hS, r, hr, hadj⟩ := Finset.mem_filter.mp h
        exact Relation.ReflTransGen.tail (ih r hr) ⟨hS, hadj⟩

lemma mem_comp_iff_reach (S : α → Bool) (adj : α → α → Bool) (p q : α) :
    q ∈ comp S adj p ↔ Reach S adj p q := by
  constructor
  · exact reach_of_mem_iterate S adj p (Fintype.card α) q
  · intro hreach
    induction hreach with
    | refl =>
        exact subset_iterate_expand S adj {p} (Fintype.card α) (Finset.mem_singleton_self p)
    | tail hab hstep ih =>
        have hmem : _ ∈ expand S adj (comp S adj p) :=
          Finset.mem_union_right _
            (Finset.mem_filter.mpr ⟨Finset.mem_univ _, hstep.1, _, ih, hstep.2⟩)
        rwa [expand_comp_fixed] at hmem

omit [DecidableEq α] [Fintype α] in
lemma reach_mono {S T : α → Bool} (adj : α → α → Bool)
    (hST : ∀ a, S a = true → T a = true) (p q : α) :
    Reach S adj p q → Reach T adj p q :=
  Relation.ReflTransGen.mono (fun _ b hab => ⟨hST b hab.1, hab.2⟩)

lemma comp_mono {S T : α → Bool} (adj : α → α → Bool)
    (hST : ∀ a, S a = true → T a = true) (p : α) :
    comp S adj p ⊆ comp T adj p := fun q hq =>
  (mem_comp_iff_reach T adj p q).mpr
    (reach_mono adj hST p q ((mem_comp_iff_reach S adj p q).mp hq))

end Closure

/-! ## Cloud-mask cleaner (clean_up_cloudmask, compute_sic.py lines 48-66)

A cloud-mask grid is its categorical integer payload together with the numpy
mask flag carried by the masked array.  The blob predicate is
`(cloudmask == 1) * (lats > 80)`, evaluated (as numpy does under `np.where`)
on the raw data payload.  `ndimage.label` is called with its default
structuring element, i.e. 4-connectivity. -/

abbrev Cell (h w : ℕ) := Fin h × Fin w

structure MaskedGrid (h w : ℕ) where
  data : Cell h w → ℤ
  mask : Cell h w → Bool

lemma MaskedGrid.ext_of {h w : ℕ} {a b : MaskedGrid h w}
    (hd : a.data = b.data) (hm : a.mask = b.mask) : a = b := by
  cases a; cases b; cases hd; cases hm; rfl

/-- 4-connectivity: the default structuring element of `scipy.ndimage.label`
(squared connectivity one, no diagonals). -/
def adj4 {h w : ℕ} (p q : Cell h w) : Bool :=
  decide ((p.1 = q.1 ∧ (p.2.val + 1 = q.2.val ∨ q.2.val + 1 = p.2.val)) ∨
    (p.2 = q.2 ∧ (p.1.val + 1 = q.1.val ∨ q.1.val + 1 = p.1.val)))

/-- 8-connectivity (diagonals included); this is what the claim asserts the
cleaner uses, for comparison against the source's 4-connectivity. -/
def adj8 {h w : ℕ} (p q : Cell h w) : Bool :=
  decide (p ≠ q ∧ ((p.1.val : ℤ) - q.1.val).natAbs ≤ 1 ∧
    ((p.2.val : ℤ) - q.2.val).natAbs ≤ 1)

/-- The blob predicate `(cloudmask == 1) * (lats > 80)` of line 59, on raw
data payloads. -/
def cloudS {h w : ℕ} (cm : MaskedGrid h w) (lats : Cell h w → ℚ) (p : Cell h w) : Bool :=
  decide (cm.data p = 1) && decide (80 < lats p)

/-- Lines 59-66: label the blob predicate into 4-connected components, reset
every pixel of a component of more than 10 pixels to 0 (not processed), keep
all other data values, and return the result under the original mask. -/
def clean_up_cloudmask {h w : ℕ} (cm : MaskedGrid h w) (lats : Cell h w → ℚ) :
    MaskedGrid h w :=
  ⟨fun p =>
    if cloudS cm lats p = true ∧ 10 < (comp (cloudS cm lats) adj4 p).card then 0
    else cm.data p,
   cm.mask⟩

lemma cloudS_true_iff {h w : ℕ} (cm : MaskedGrid h w) (lats : Cell h w → ℚ) (p : Cell h w) :
    cloudS cm lats p = true ↔ cm.data p = 1 ∧ 80 < lats p := by
  simp [cloudS]

lemma clean_data_eq_one {h w : ℕ} (cm : MaskedGrid h w) (lats : Cell h w → ℚ)
    (p : Cell h w) (h1 : (clean_up_cloudmask cm lats).data p = 1) :
    cm.data p = 1 ∧
      ¬(cloudS cm lats p = true ∧ 10 < (comp (cloudS cm lats) adj4 p).card) := by
  by_cases hc : cloudS cm lats p = true ∧ 10 < (comp (cloudS cm lats) adj4 p).card
  · exfalso
    have : (clean_up_cloudmask cm lats).data p = 0 := by
      simp [clean_up_cloudmask, hc]
    omega
  · have : (clean_up_cloudmask cm lats).data p = cm.data p := by
      simp [clean_up_cloudmask, hc]
    exact ⟨this ▸ h1, hc⟩

/-- C3 (amended): for every cloud mask and latitude grid of the same shape,
the cleaner keeps every pixel's mask-invalidity flag, resets to 0 exactly the
pixels belonging to a maximal contiguous component -- with 4-connectivity,
diagonals excluded, the default of `ndimage.label` -- of the set
`cloudmask == 1 AND lats > 80` whose pixel count exceeds 10, and leaves every
other pixel's value unchanged (so in particular the case of zero matching
pixels returns the input values unchanged; the function is total). -/
theorem clean_up_cloudmask_spec (h w : ℕ) (cm : MaskedGrid h w)
    (lats : Cell h w → ℚ) (p : Cell h w) :
    (clean_up_cloudmask cm lats).mask p = cm.mask p ∧
    ((cloudS cm lats p = true ∧
        10 < Set.ncard {q | Reach (cloudS cm lats) adj4 p q} ∧
        (clean_up_cloudmask cm lats).data p = 0) ∨
      (¬(cloudS cm lats p = true ∧
          10 < Set.ncard {q | Reach (cloudS cm lats) adj4 p q}) ∧
        (clean_up_cloudmask cm lats).data p = cm.data p)) := by
  have hset : {q | Reach (cloudS cm lats) adj4 p q} =
      ↑(comp (cloudS cm lats) adj4 p) := by
    ext q
    simp only [Set.mem_setOf_eq, Finset.coe_sort_coe, Finset.mem_coe]
    exact (mem_comp_iff_reach (cloudS cm lats) adj4 p q).symm
  have hcard : Set.ncard {q | Reach (cloudS cm lats) adj4 p q} =
      (comp (cloudS cm lats) adj4 p).card := by
    rw [hset, Set.ncard_coe_Finset]
  refine ⟨rfl, ?_⟩
  rw [hcard]
  by_cases hc : cloudS cm lats p = true ∧ 10 < (comp (cloudS cm lats) adj4 p).card
  · exact Or.inl ⟨hc.1, hc.2, by simp [clean_up_cloudmask, hc]⟩
  · exact Or.inr ⟨hc, by simp [clean_up_cloudmask, hc]⟩

/-- C4: the cloud-mask cleaner is idempotent: applying it to its own output
(with the same latitude grid) is a no-op, because after cleanup no remaining
component of the blob predicate exceeds 10 pixels. -/
theorem clean_up_cloudmask_idem (h w : ℕ) (cm : MaskedGrid h w)
    (lats : Cell h w → ℚ) :
    clean_up_cloudmask (clean_up_cloudmask cm lats) lats =
      clean_up_cloudmask cm lats := by
  set out := clean_up_cloudmask cm lats with hout
  have hsub : ∀ a, cloudS out lats a = true → cloudS cm lats a = true := by
    intro a ha
    rcases (cloudS_true_iff out lats a).mp ha with ⟨h1, hlat⟩
    exact (cloudS_true_iff cm lats a).mpr ⟨(clean_data_eq_one cm lats a h1).1, hlat⟩
  refine MaskedGrid.ext_of (funext fun p => ?_) rfl
  by_cases hc : cloudS out lats p = true ∧ 10 < (comp (cloudS out lats) adj4 p).card
  · exfalso
    rcases hc with ⟨hS', hbig⟩
    rcases (cloudS_true_iff out lats p).mp hS' with ⟨h1, hlat⟩
    rcases clean_data_eq_one cm lats p h1 with ⟨hcm1, hnc⟩
    have hS : cloudS cm lats p = true := (cloudS_true_iff cm lats p).mpr ⟨hcm1, hlat⟩
    have hsmall : ¬10 < (comp (cloudS cm lats) adj4 p).card := fun hb => hnc ⟨hS, hb⟩
    have hle : (comp (cloudS out lats) adj4 p).card ≤
        (comp (cloudS cm lats) adj4 p).card :=
      Finset.card_le_card (comp_mono adj4 hsub p)
    omega
  · show (clean_up_cloudmask out lats).data p = out.data p
    simp [clean_up_cloudmask, hc]

/-- Concrete 2-by-11 cloud-mask grid: six clear/water pixels in row 0
(columns 0-5) and five in row 1 (columns 6-10).  The two runs touch only
diagonally at (0,5)/(1,6), so they form one 11-pixel component under
8-connectivity but two components of 6 and 5 pixels under 4-connectivity. -/
def cmC3 : MaskedGrid 2 11 :=
  ⟨fun p => if (p.1.val = 0 ∧ p.2.val ≤ 5) ∨ (p.1.val = 1 ∧ 6 ≤ p.2.val) then 1 else 0,
   fun _ => false⟩

def latsC3 : Cell 2 11 → ℚ := fun _ => 85

/-- C3 counterexample: on `cmC3` the pixel (0,0) lies in an 8-connected
(diagonals included) component of the blob predicate with more than 10
pixels, yet `clean_up_cloudmask` leaves its value at 1 instead of resetting
it to 0: `ndimage.label` is called with its default 4-connectivity, so the
claim's diagonal-included connectivity is wrong. -/
theorem clean_up_connectivity_cex :
    cloudS cmC3 latsC3 ((0 : Fin 2), (0 : Fin 11)) = true ∧
    10 < (comp (cloudS cmC3 latsC3) adj8 ((0 : Fin 2), (0 : Fin 11))).card ∧
    (clean_up_cloudmask cmC3 latsC3).data ((0 : Fin 2), (0 : Fin 11)) = 1 := by
  decide

/-! ## SIC estimator (compute_sic, compute_sic.py lines 69-114)

All branching in `compute_sic` happens through `np.where`, which operates on
raw `.data` payloads and returns a plain ndarray, discarding any mask of its
arguments.  The per-pixel embedding below mirrors this: intermediate
coefficient masks exist (`iceMeanCell`, `iceStdCell`) but the returned pixel
mask is exactly `cloudmask.mask + mask` of line 112. -/

/-- A numpy masked scalar: raw data payload plus invalidity flag. -/
structure MVal where
  val : ℚ
  mask : Bool
deriving DecidableEq

/-- A raw float read from the coefficient table: its rational payload and a
finiteness flag; `finite = false` models NaN or Inf. -/
structure FloatQ where
  val : ℚ
  finite : Bool
deriving DecidableEq

/-- Default numpy fill value (1e20) substituted by `np.ma.fix_invalid`. -/
def fillValue : ℚ := 10 ^ 20

def water_threshold : ℚ := 3

/-- Lines 96-97: mask the ice mean where it equals 0 (NaN compares unequal to
0, as in numpy), then `fix_invalid`: non-finite entries are masked and their
payload replaced by the fill value. -/
def iceMeanCell (c : FloatQ) : MVal :=
  if c.finite = true then ⟨c.val, decide (c.val = 0)⟩ else ⟨fillValue, true⟩

/-- Lines 98-99: `fix_invalid` on the ice standard deviation; a value of
exactly 0 is finite and therefore kept unmasked. -/
def iceStdCell (c : FloatQ) : MVal :=
  if c.finite = true then ⟨c.val, false⟩ else ⟨fillValue, true⟩

/-- Line 100: `np.where(ice_std >= ice_mean, ice_mean/3, ice_std)` on raw
payloads (the result is a plain ndarray: the coefficient masks are dropped
here). -/
def stdCorrected (cMean cStd : FloatQ) : ℚ :=
  if (iceMeanCell cMean).val ≤ (iceStdCell cStd).val then (iceMeanCell cMean).val / 3
  else (iceStdCell cStd).val

/-- Denominator of line 107: `ice_mean - ice_std/2`. -/
def sicDenom (cMean cStd : FloatQ) : ℚ :=
  (iceMeanCell cMean).val - stdCorrected cMean cStd / 2

/-- Line 107: raw concentration `100*data/(ice_mean - ice_std/2)`. -/
def rawSic (d : ℚ) (cMean cStd : FloatQ) : ℚ :=
  100 * d / sicDenom cMean cStd

/-- Line 103: the exclusion mask (cloud classes 2/3/0/5, solar zenith above
89, or ambiguous mid-range reflectance), on raw payloads. -/
def sicExcluded (cmVal : ℤ) (soz : ℤ) (d : ℚ) (cMean cStd : FloatQ) : Bool :=
  decide (cmVal = 2) || decide (cmVal = 3) || decide (cmVal = 0) || decide (cmVal = 5) ||
    decide (89 < soz) || (decide (3 < d) && decide (d < stdCorrected cMean cStd / 2))

/-- Line 104: water override, cloud class clear/water and reflectance below
`water_threshold + 2`. -/
def waterOverride (cmVal : ℤ) (d : ℚ) : Bool :=
  decide (cmVal = 1) && decide (d < water_threshold + 2)

/-- Lines 107-112 per pixel: clamp the raw concentration at 100, zero it at
or below the water threshold, zero it under the water override, and attach
the mask `cloudmask.mask + mask` (the ndarray-returning `np.where` chain has
already dropped every other mask). -/
def computeSicPixel (d : ℚ) (cmVal : ℤ) (cmMask : Bool) (soz : ℤ)
    (cMean cStd : FloatQ) : MVal :=
  ⟨if waterOverride cmVal d = true then 0
    else if d ≤ water_threshold then 0
    else if 100 < rawSic d cMean cStd then 100
    else rawSic d cMean cStd,
   cmMask || sicExcluded cmVal soz d cMean cStd⟩

/-- Line 245: combine the estimator mask with the climatological extent mask
(invalid where extent is absent). -/
def extentStep (s : MVal) (extentMask : Bool) : MVal :=
  ⟨s.val, s.mask || !extentMask⟩

/-- Lines 163-182 (`apply_mask`): where the Boolean mask argument (the land
mask) holds, the payload is overwritten with 200 and the accumulated
invalidity flag is reset to False; elsewhere both are kept. -/
def apply_mask (maskArr : Bool) (s : MVal) : MVal :=
  ⟨if maskArr = true then 200 else s.val,
   if maskArr = true then false else s.mask⟩

/-- Lines 238-254 per pixel, from the estimator onwards: estimator, extent
mask composition, land mask application. -/
def mainPipelinePixel (d : ℚ) (cmVal : ℤ) (cmMask : Bool) (soz : ℤ)
    (cMean cStd : FloatQ) (extentMask landMask : Bool) : MVal :=
  apply_mask landMask (extentStep (computeSicPixel d cmVal cmMask soz cMean cStd) extentMask)

/-- C1 failing input: a cloud-contaminated pixel (class 2, so the estimator
marks it invalid) outside the climatological extent, on land.  The extent
step leaves it invalid, but `apply_mask` resets the accumulated invalidity
flag to False and returns the pixel as valid with payload 200: the final
validity mask is not a superset of the accumulated exclusions, land pixels
end up valid, and an earlier validity flag is cleared. -/
theorem apply_mask_clears_flag :
    (extentStep (computeSicPixel 50 2 false 45 ⟨60, true⟩ ⟨6, true⟩) false).mask = true ∧
    mainPipelinePixel 50 2 false 45 ⟨60, true⟩ ⟨6, true⟩ false true = ⟨200, false⟩ := by
  norm_num [mainPipelinePixel, apply_mask, extentStep, computeSicPixel, waterOverride,
    water_threshold, sicExcluded, stdCorrected, iceMeanCell, iceStdCell, rawSic, sicDenom,
    fillValue]

/-- C2 failing input: (a) an ice-std table entry of exactly 0 is finite, so
`fix_invalid` leaves it unmasked -- it is not invalidated before use; (b) a
pixel whose ice-mean table entry is NaN is masked in the intermediate
coefficient array, but the returned concentration field's mask (line 112:
`cloudmask.mask + mask`) does not include the coefficient masks, which the
`np.where` chain dropped, so the pixel comes back valid. -/
theorem coeff_masks_dropped :
    (iceStdCell ⟨0, true⟩).mask = false ∧
    (iceMeanCell ⟨0, false⟩).mask = true ∧
    (computeSicPixel 50 4 false 45 ⟨0, false⟩ ⟨6, true⟩).mask = false := by
  norm_num [computeSicPixel, waterOverride, water_threshold, sicExcluded, stdCorrected,
    iceMeanCell, iceStdCell, rawSic, sicDenom, fillValue]

lemma iceMeanCell_val_of_finite (c : FloatQ) (h : c.finite = true) :
    (iceMeanCell c).val = c.val := by
  simp [iceMeanCell, h]

lemma sicDenom_pos (cMean cStd : FloatQ) (hf : cMean.finite = true)
    (hm : 0 < cMean.val) : 0 < sicDenom cMean cStd := by
  unfold sicDenom stdCorrected
  rw [iceMeanCell_val_of_finite cMean hf]
  by_cases hle : cMean.val ≤ (iceStdCell cStd).val
  · rw [if_pos hle]
    linarith
  · rw [if_neg hle]
    push_neg at hle
    linarith

lemma sicVal_eq_raw (d : ℚ) (cmVal : ℤ) (cmMask : Bool) (soz : ℤ)
    (cMean cStd : FloatQ) (h3 : water_threshold < d)
    (hw : waterOverride cmVal d = false) (hc : rawSic d cMean cStd < 100) :
    (computeSicPixel d cmVal cmMask soz cMean cStd).val = rawSic d cMean cStd := by
  unfold computeSicPixel
  simp only [hw, Bool.false_eq_true, if_false, not_le.mpr h3, if_false,
    not_lt.mpr hc.le, if_false]

/-- C5 (amended): for fixed coefficients whose looked-up ice mean is finite
and positive, fixed cloud-mask value and input masks, and every pair of
reflectances strictly above the water threshold for which the water-override
condition holds for neither and both raw concentrations lie below the 100
clamp, the larger reflectance yields a strictly larger sic value. -/
theorem sic_monotone (cMean cStd : FloatQ) (cmVal : ℤ) (cmMask : Bool) (soz : ℤ)
    (d1 d2 : ℚ) (hf : cMean.finite = true) (hm : 0 < cMean.val)
    (h1 : water_threshold < d1) (h2 : water_threshold < d2) (h12 : d1 < d2)
    (hw1 : waterOverride cmVal d1 = false) (hw2 : waterOverride cmVal d2 = false)
    (hc1 : rawSic d1 cMean cStd < 100) (hc2 : rawSic d2 cMean cStd < 100) :
    (computeSicPixel d1 cmVal cmMask soz cMean cStd).val <
      (computeSicPixel d2 cmVal cmMask soz cMean cStd).val := by
  rw [sicVal_eq_raw d1 cmVal cmMask soz cMean cStd h1 hw1 hc1,
    sicVal_eq_raw d2 cmVal cmMask soz cMean cStd h2 hw2 hc2]
  have hden := sicDenom_pos cMean cStd hf hm
  unfold rawSic
  rw [div_lt_div_iff₀ hden hden]
  nlinarith

theorem sic_monotone_witness :
    (computeSicPixel 10 4 false 45 ⟨60, true⟩ ⟨6, true⟩).val <
      (computeSicPixel 20 4 false 45 ⟨60, true⟩ ⟨6, true⟩).val :=
  sic_monotone ⟨60, true⟩ ⟨6, true⟩ 4 false 45 10 20 rfl (by norm_num)
    (by norm_num [water_threshold]) (by norm_num [water_threshold]) (by norm_num)
    (by norm_num [waterOverride]) (by norm_num [waterOverride])
    (by norm_num [rawSic, sicDenom, stdCorrected, iceMeanCell, iceStdCell])
    (by norm_num [rawSic, sicDenom, stdCorrected, iceMeanCell, iceStdCell])

/-- C5 counterexample: (a) at cloud class clear/water (1), two reflectances
7/2 and 9/2 both strictly above the water threshold with raw concentrations
below the clamp are both zeroed by the water override, so the larger one does
not yield a strictly larger sic; (b) with a negative (unmasked) ice mean -5,
raw concentrations are below the clamp but strictly decrease in reflectance. -/
theorem sic_monotone_cex :
    (water_threshold < (7/2 : ℚ) ∧ water_threshold < (9/2 : ℚ) ∧ (7/2 : ℚ) < 9/2 ∧
      rawSic (7/2) ⟨60, true⟩ ⟨6, true⟩ < 100 ∧ rawSic (9/2) ⟨60, true⟩ ⟨6, true⟩ < 100 ∧
      ¬((computeSicPixel (7/2) 1 false 45 ⟨60, true⟩ ⟨6, true⟩).val <
        (computeSicPixel (9/2) 1 false 45 ⟨60, true⟩ ⟨6, true⟩).val)) ∧
    (water_threshold < (4 : ℚ) ∧ water_threshold < (5 : ℚ) ∧ (4 : ℚ) < 5 ∧
      rawSic 4 ⟨-5, true⟩ ⟨1, true⟩ < 100 ∧ rawSic 5 ⟨-5, true⟩ ⟨1, true⟩ < 100 ∧
      ¬((computeSicPixel 4 4 false 45 ⟨-5, true⟩ ⟨1, true⟩).val <
        (computeSicPixel 5 4 false 45 ⟨-5, true⟩ ⟨1, true⟩).val)) := by
  norm_num [computeSicPixel, waterOverride, water_threshold, sicExcluded, stdCorrected,
    iceMeanCell, iceStdCell, rawSic, sicDenom, fillValue]

/-- C6 (amended): the returned sic value is exactly 0 wherever the
reflectance is at or below the water threshold or the water override holds;
and for reflectance strictly above the water threshold at a pixel where the
water override does not hold and the looked-up ice mean is finite and
positive, the sic value is strictly positive. -/
theorem sic_boundary (d : ℚ) (cmVal : ℤ) (cmMask : Bool) (soz : ℤ)
    (cMean cStd : FloatQ) :
    ((d ≤ water_threshold ∨ waterOverride cmVal d = true) →
      (computeSicPixel d cmVal cmMask soz cMean cStd).val = 0) ∧
    (water_threshold < d → waterOverride cmVal d = false → cMean.finite = true →
      0 < cMean.val → 0 < (computeSicPixel d cmVal cmMask soz cMean cStd).val) := by
  constructor
  · intro hzero
    unfold computeSicPixel
    rcases hzero with hle | hwt
    · by_cases hw : waterOverride cmVal d = true
      · simp [hw]
      · simp [hw, hle]
    · simp [hwt]
  · intro h3 hw hf hm
    have hden := sicDenom_pos cMean cStd hf hm
    have hraw : 0 < rawSic d cMean cStd := by
      unfold rawSic
      have hd : (0 : ℚ) < 100 * d := by
        have : (0 : ℚ) < d := lt_trans (by norm_num [water_threshold]) h3
        linarith
      exact div_pos hd hden
    unfold computeSicPixel
    simp only [hw, Bool.false_eq_true, if_false, not_le.mpr h3, if_false]
    by_cases hcl : 100 < rawSic d cMean cStd
    · simp [hcl]
    · simpa [hcl] using hraw

theorem sic_boundary_witness :
    (computeSicPixel 2 4 false 45 ⟨60, true⟩ ⟨6, true⟩).val = 0 ∧
    0 < (computeSicPixel 4 4 false 45 ⟨60, true⟩ ⟨6, true⟩).val :=
  ⟨(sic_boundary 2 4 false 45 ⟨60, true⟩ ⟨6, true⟩).1
     (Or.inl (by norm_num [water_threshold])),
   (sic_boundary 4 4 false 45 ⟨60, true⟩ ⟨6, true⟩).2 (by norm_num [water_threshold])
     (by norm_num [waterOverride]) rfl (by norm_num)⟩

/-- C6 counterexample: (a) reflectance 7/2 = threshold + 1/2 at an unmasked
clear/water pixel gives sic = 0, not a positive value, because the water
override zeroes every clear/water pixel with reflectance below 5; (b) with a
negative unmasked ice mean -5, reflectance 4 at an unmasked pixel gives a
strictly negative sic. -/
theorem sic_boundary_cex :
    (water_threshold < (7/2 : ℚ) ∧
      (computeSicPixel (7/2) 1 false 45 ⟨60, true⟩ ⟨6, true⟩).mask = false ∧
      (computeSicPixel (7/2) 1 false 45 ⟨60, true⟩ ⟨6, true⟩).val = 0) ∧
    (water_threshold < (4 : ℚ) ∧
      (computeSicPixel 4 4 false 45 ⟨-5, true⟩ ⟨1, true⟩).mask = false ∧
      (computeSicPixel 4 4 false 45 ⟨-5, true⟩ ⟨1, true⟩).val < 0) := by
  norm_num [computeSicPixel, waterOverride, water_threshold, sicExcluded, stdCorrected,
    iceMeanCell, iceStdCell, rawSic, sicDenom, fillValue]

/-- C7: the end-to-end example pixel: reflectance 50, ice mean 60, ice std 6,
cloud class clear/water (1), solar zenith 45 yields sic = 100*50/(60-3) =
5000/57 (about 87.72), not clamped to 100, not zeroed, and not masked. -/
theorem sic_example_pixel :
    computeSicPixel 50 1 false 45 ⟨60, true⟩ ⟨6, true⟩ = ⟨100 * 50 / (60 - 3), false⟩ ∧
    (computeSicPixel 50 1 false 45 ⟨60, true⟩ ⟨6, true⟩).val ≠ 100 ∧
    (computeSicPixel 50 1 false 45 ⟨60, true⟩ ⟨6, true⟩).val ≠ 0 ∧
    (computeSicPixel 50 1 false 45 ⟨60, true⟩ ⟨6, true⟩).mask = false := by
  norm_num [computeSicPixel, waterOverride, water_threshold, sicExcluded, stdCorrected,
    iceMeanCell, iceStdCell, rawSic, sicDenom, fillValue]

/-! ## Bayesian surface classifier (calc_wic_prob_day_twi, lines 265-458)

The Gaussian likelihood evaluation (normalpdf, which uses exp) is upstream of
the claims below; the fusion and quality-gate stages are embedded per pixel
with the per-class likelihood values as inputs.  `useA06` is the module
constant of line 269 (kept as a parameter so both branches of the source are
covered); `useVAR3` is the per-pixel availability flag `useA16 + useT37` of
line 415.  Rational division by zero yields 0 where numpy float division
would yield NaN; the one concrete evaluation exercising this point violates
the stated tolerance under both semantics. -/

structure Triple where
  pigobs : ℚ
  pwgobs : ℚ
  pcgobs : ℚ
deriving DecidableEq

def prob_undef : ℚ := -999

/-- Lines 422-431: two-feature (or single-feature when `useA06` is off)
Bayesian fusion with flat priors, normalised by the summed products. -/
def stageA (useA06 : Bool) (v1i v1w v1c v2i v2w v2c : ℚ) : Triple :=
  if useA06 = true then
    ⟨v1i * v2i / (v1i * v2i + v1w * v2w + v1c * v2c),
     v1w * v2w / (v1i * v2i + v1w * v2w + v1c * v2c),
     v1c * v2c / (v1i * v2i + v1w * v2w + v1c * v2c)⟩
  else
    ⟨v1i / (v1i + v1w + v1c),
     v1w / (v1i + v1w + v1c),
     v1c / (v1i + v1w + v1c)⟩

/-- Lines 435-445: three-feature recomputation used to overwrite the Stage-A
result at pixels where VAR3 is available. -/
def stageB (useA06 : Bool) (v1i v1w v1c v2i v2w v2c v3i v3w v3c : ℚ) : Triple :=
  if useA06 = true then
    ⟨v1i * v2i * v3i / (v1i * v2i * v3i + v1w * v2w * v3w + v1c * v2c * v3c),
     v1w * v2w * v3w / (v1i * v2i * v3i + v1w * v2w * v3w + v1c * v2c * v3c),
     v1c * v2c * v3c / (v1i * v2i * v3i + v1w * v2w * v3w + v1c * v2c * v3c)⟩
  else
    ⟨v1i * v3i / (v1i * v3i + v1w * v3w + v1c * v3c),
     v1w * v3w / (v1i * v3i + v1w * v3w + v1c * v3c),
     v1c * v3c / (v1i * v3i + v1w * v3w + v1c * v3c)⟩

/-- Per-pixel posterior before the quality gate: Stage B where VAR3 is
available, Stage A elsewhere. -/
def posteriors (useA06 useVAR3 : Bool) (v1i v1w v1c v2i v2w v2c v3i v3w v3c : ℚ) :
    Triple :=
  if useVAR3 = true then stageB useA06 v1i v1w v1c v2i v2w v2c v3i v3w v3c
  else stageA useA06 v1i v1w v1c v2i v2w v2c

/-- Lines 449-452: the quality-gate condition, in the source's operand order:
`(pwgobs > 1)*(pwgobs < 0)` times the analogous products for ice and cloud,
times `ma.is_masked(A06)`. -/
def falsevalue (t : Triple) (a06masked : Bool) : Bool :=
  (((decide (1 < t.pwgobs) && decide (t.pwgobs < 0)) &&
    (decide (1 < t.pigobs) && decide (t.pigobs < 0))) &&
    (decide (1 < t.pcgobs) && decide (t.pcgobs < 0))) && a06masked

/-- Lines 454-456: where the gate fires, all three posteriors are replaced by
the sentinel. -/
def applyGate (t : Triple) (a06masked : Bool) : Triple :=
  if falsevalue t a06masked = true then ⟨prob_undef, prob_undef, prob_undef⟩ else t

/-- The classifier per pixel: fused posteriors followed by the quality gate. -/
def classifyPixel (useA06 useVAR3 : Bool)
    (v1i v1w v1c v2i v2w v2c v3i v3w v3c : ℚ) (a06masked : Bool) : Triple :=
  applyGate (posteriors useA06 useVAR3 v1i v1w v1c v2i v2w v2c v3i v3w v3c) a06masked

lemma falsevalue_eq_false (t : Triple) (m : Bool) : falsevalue t m = false := by
  unfold falsevalue
  rcases le_or_lt t.pwgobs 1 with h | h
  · have hd : decide (1 < t.pwgobs) = false := decide_eq_false (not_lt.mpr h)
    simp [hd]
  · have hd : decide (t.pwgobs < 0) = false := decide_eq_false (by linarith)
    simp [hd]

lemma gate_identity (useA06 useVAR3 : Bool)
    (v1i v1w v1c v2i v2w v2c v3i v3w v3c : ℚ) (m : Bool) :
    classifyPixel useA06 useVAR3 v1i v1w v1c v2i v2w v2c v3i v3w v3c m =
      posteriors useA06 useVAR3 v1i v1w v1c v2i v2w v2c v3i v3w v3c := by
  unfold classifyPixel applyGate
  simp [falsevalue_eq_false]

/-- C10: the quality-gate condition multiplies `(p > 1)` by `(p < 0)` for
each class, so it is false at every pixel for every input; the sentinel
assignment branch is unreachable and the gate returns its input unchanged. -/
theorem wic_falsevalue_never (t : Triple) (m : Bool) :
    falsevalue t m = false ∧ applyGate t m = t :=
  ⟨falsevalue_eq_false t m, by simp [applyGate, falsevalue_eq_false]⟩

theorem wic_falsevalue_never_witness :
    falsevalue ⟨2, 2, -3⟩ true = false ∧ applyGate ⟨2, 2, -3⟩ true = ⟨2, 2, -3⟩ :=
  wic_falsevalue_never ⟨2, 2, -3⟩ true

/-- C8 (amended): the gate would set all three posteriors to the sentinel
exactly when each posterior is simultaneously greater than 1 and less than 0
(the source's conjunctive per-class product) and the primary channel is
masked; this condition is unsatisfiable, so the classifier always returns the
fused posteriors unchanged and never introduces the sentinel into any of the
three grids. -/
theorem wic_gate_identity (useA06 useVAR3 : Bool)
    (v1i v1w v1c v2i v2w v2c v3i v3w v3c : ℚ) (m : Bool) :
    classifyPixel useA06 useVAR3 v1i v1w v1c v2i v2w v2c v3i v3w v3c m =
      posteriors useA06 useVAR3 v1i v1w v1c v2i v2w v2c v3i v3w v3c :=
  gate_identity useA06 useVAR3 v1i v1w v1c v2i v2w v2c v3i v3w v3c m

/-- C8 counterexample: likelihood inputs giving Stage-A posteriors
(2, 2, -3) -- each outside [0, 1] -- with the primary channel masked.  The
claim requires all three outputs to be the sentinel -999, but the gate leaves
them untouched: its per-class check is `(p > 1) AND (p < 0)`, not
`outside [0, 1]`. -/
theorem wic_gate_cex :
    1 < (classifyPixel true false 2 2 (-3) 1 1 1 0 0 0 true).pigobs ∧
    1 < (classifyPixel true false 2 2 (-3) 1 1 1 0 0 0 true).pwgobs ∧
    (classifyPixel true false 2 2 (-3) 1 1 1 0 0 0 true).pcgobs < 0 ∧
    (classifyPixel true false 2 2 (-3) 1 1 1 0 0 0 true).pigobs ≠ prob_undef := by
  norm_num [classifyPixel, applyGate, falsevalue, posteriors, stageA, prob_undef]

/-- C9 (amended): with `useA06` on (the source's constant), for every pixel
whose Stage-A two-feature product sum is nonzero and -- where VAR3 is
available -- whose Stage-B three-feature product sum is also nonzero, the
three returned posteriors sum to 1 within tolerance 1/1000000 (no pixel is
sentinel-flagged, the gate being unreachable). -/
theorem wic_posteriors_sum (useVAR3 : Bool)
    (v1i v1w v1c v2i v2w v2c v3i v3w v3c : ℚ) (m : Bool)
    (hA : v1i * v2i + v1w * v2w + v1c * v2c ≠ 0)
    (hB : useVAR3 = true → v1i * v2i * v3i + v1w * v2w * v3w + v1c * v2c * v3c ≠ 0) :
    |((classifyPixel true useVAR3 v1i v1w v1c v2i v2w v2c v3i v3w v3c m).pigobs +
      (classifyPixel true useVAR3 v1i v1w v1c v2i v2w v2c v3i v3w v3c m).pwgobs +
      (classifyPixel true useVAR3 v1i v1w v1c v2i v2w v2c v3i v3w v3c m).pcgobs) - 1| ≤
      1 / 1000000 := by
  rw [gate_identity]
  cases huse : useVAR3 with
  | false =>
      have hi : (posteriors true false v1i v1w v1c v2i v2w v2c v3i v3w v3c).pigobs =
          v1i * v2i / (v1i * v2i + v1w * v2w + v1c * v2c) := rfl
      have hw : (posteriors true false v1i v1w v1c v2i v2w v2c v3i v3w v3c).pwgobs =
          v1w * v2w / (v1i * v2i + v1w * v2w + v1c * v2c) := rfl
      have hc : (posteriors true false v1i v1w v1c v2i v2w v2c v3i v3w v3c).pcgobs =
          v1c * v2c / (v1i * v2i + v1w * v2w + v1c * v2c) := rfl
      rw [hi, hw, hc, div_add_div_same, div_add_div_same, div_self hA]
      norm_num
  | true =>
      have hi : (posteriors true true v1i v1w v1c v2i v2w v2c v3i v3w v3c).pigobs =
          v1i * v2i * v3i / (v1i * v2i * v3i + v1w * v2w * v3w + v1c * v2c * v3c) := rfl
      have hw : (posteriors true true v1i v1w v1c v2i v2w v2c v3i v3w v3c).pwgobs =
          v1w * v2w * v3w / (v1i * v2i * v3i + v1w * v2w * v3w + v1c * v2c * v3c) := rfl
      have hc : (posteriors true true v1i v1w v1c v2i v2w v2c v3i v3w v3c).pcgobs =
          v1c * v2c * v3c / (v1i * v2i * v3i + v1w * v2w * v3w + v1c * v2c * v3c) := rfl
      rw [hi, hw, hc, div_add_div_same, div_add_div_same, div_self (hB huse)]
      norm_num

theorem wic_posteriors_sum_witness :
    |((classifyPixel true true 1 1 1 1 1 1 1 1 1 false).pigobs +
      (classifyPixel true true 1 1 1 1 1 1 1 1 1 false).pwgobs +
      (classifyPixel true true 1 1 1 1 1 1 1 1 1 false).pcgobs) - 1| ≤ 1 / 1000000 :=
  wic_posteriors_sum true 1 1 1 1 1 1 1 1 1 false (by norm_num) (fun _ => by norm_num)

/-- C9 counterexample: a pixel with valid Stage-A inputs (all likelihoods 1,
two-feature sum 3), not sentinel-flagged, but where VAR3 is available with
all three VAR3 likelihoods 0 (a Gaussian pdf underflows to exactly 0 far
from the mean).  The Stage-B normaliser is 0, so the overwritten posteriors
do not sum to 1 within 1/1000000: in the rational embedding division by zero
gives posteriors (0, 0, 0), and in numpy float arithmetic 0.0/0.0 gives NaN;
both violate the stated tolerance. -/
theorem wic_norm_cex :
    (1 * 1 + 1 * 1 + 1 * 1 : ℚ) ≠ 0 ∧
    falsevalue (posteriors true true 1 1 1 1 1 1 0 0 0) false = false ∧
    ¬(|((classifyPixel true true 1 1 1 1 1 1 0 0 0 false).pigobs +
        (classifyPixel true true 1 1 1 1 1 1 0 0 0 false).pwgobs +
        (classifyPixel true true 1 1 1 1 1 1 0 0 0 false).pcgobs) - 1| ≤ 1 / 1000000) := by
  norm_num [classifyPixel, applyGate, falsevalue, posteriors, stageB, prob_undef]

end IcearcAvhrrSic
